import Mathlib

/-!
Verification of the recidivism-label pipeline of
`xx_1_Machine_Learning_Labels.ipynb`.

The notebook's `create_labels` function runs a fixed SQL script over a
SQLite database: normalize the `sentences` table (`sentences_prep`),
filter releases to the historical window (`release_dates_2000_YYYY`),
collapse to the latest release per individual (`last_exit_2000_YYYY`),
filter admissions with `sentence_component = 1` to the prediction window
(`admit_Y1_Y2`), left-join and flag (`recidivism_Y1_Y2`), and de-duplicate
(`recidivism_labels_Y1_Y2`), finally reading the label table back as a
dataframe.  The script is executed through the module-global cursor; the
read uses the `conn` parameter.

This file embeds each relation as a Lean list function, the database as a
`Store` of named tables with drop-and-recreate updates, and proves the
specified properties of the pipeline.
-/

namespace RecidivismLabels

/-- Value of a digit character. -/
def digitVal (c : Char) : Nat := c.toNat - '0'.toNat

/-- Value of a list of digit characters, most significant first. -/
def digitsVal (cs : List Char) : Nat := cs.foldl (fun a c => 10 * a + digitVal c) 0

/-- Leading digits of a character list. -/
def takeDigits : List Char → List Char
  | [] => []
  | c :: cs => if c.isDigit then c :: takeDigits cs else []

/-- Models SQLite `CAST(expr AS INTEGER)` applied to a text value: optional
leading whitespace, an optional sign, then the longest digit prefix; a value
with no digit prefix casts to 0. -/
def sqliteCastInt (s : String) : Int :=
  let cs := s.data.dropWhile (fun c => c == ' ' || c == '\t')
  match cs with
  | '-' :: rest => - (digitsVal (takeDigits rest) : Int)
  | '+' :: rest => (digitsVal (takeDigits rest) : Int)
  | _ => (digitsVal (takeDigits cs) : Int)

/-- Gregorian leap-year test. -/
def isLeapYear (y : Nat) : Bool := (y % 4 == 0 && y % 100 != 0) || y % 400 == 0

/-- Number of days in a month. -/
def daysInMonth (y m : Nat) : Nat :=
  if m == 2 then (if isLeapYear y then 29 else 28)
  else if m == 4 || m == 6 || m == 9 || m == 11 then 30 else 31

/-- Models SQLite's `date(X)` builtin restricted to `YYYY-MM-DD` input: a
well-formed calendar date string is returned unchanged (already in SQLite's
normalized form); any other value yields `none`, modelling SQL `NULL`
(SQLite's date functions return NULL on unrecognized input; they do not
raise an error). -/
def sqliteDate (s : String) : Option String :=
  match s.data with
  | [y1, y2, y3, y4, h1, m1, m2, h2, d1, d2] =>
    if y1.isDigit && y2.isDigit && y3.isDigit && y4.isDigit &&
        (h1 == '-') && (h2 == '-') && m1.isDigit && m2.isDigit &&
        d1.isDigit && d2.isDigit then
      let y := digitsVal [y1, y2, y3, y4]
      let m := digitsVal [m1, m2]
      let d := digitsVal [d1, d2]
      if 1 ≤ m ∧ m ≤ 12 ∧ 1 ≤ d ∧ d ≤ daysInMonth y m then some s else none
    else none
  | _ => none

/-- Maximal runs of consecutive digit characters; `cur` is the current run,
reversed. -/
def digitRunsAux : List Char → List Char → List (List Char)
  | cur, [] => if cur.isEmpty then [] else [cur.reverse]
  | cur, c :: cs =>
    if c.isDigit then digitRunsAux (c :: cur) cs
    else if cur.isEmpty then digitRunsAux [] cs
    else cur.reverse :: digitRunsAux [] cs

/-- Models `dateutil.parser.parse(s, fuzzy=True).year` on the date-string
arguments of `create_labels`: the first four-digit token is the year; a
string without one makes the parser raise (uncaught), modelled as `none`. -/
def parseFuzzyYear (s : String) : Option Nat :=
  ((digitRunsAux [] s.data).find? (fun r => r.length == 4)).map digitsVal

/-- A raw row of the source `sentences` table: the identifier column
`INMATE_DOC_NUMBER`, the text columns `INMATE_SENTENCE_COMPONENT`,
`SENTENCE_BEGIN_DATE_(FOR_MAX)` and `ACTUAL_SENTENCE_END_DATE`. -/
structure RawSentence where
  inmate_doc_number : Nat
  inmate_sentence_component : String
  sentence_begin_date_raw : String
  sentence_end_date_raw : String
deriving DecidableEq

/-- A row of `sentences_prep`: component cast to integer, dates parsed. -/
structure PrepRow where
  inmate_doc_number : Nat
  sentence_component : Int
  sentence_begin_date : Option String
  sentence_end_date : Option String
deriving DecidableEq

/-- A row of `release_dates_2000_YYYY` (and of `last_exit_2000_YYYY`). -/
structure ReleaseRow where
  inmate_doc_number : Nat
  sentence_end_date : Option String
deriving DecidableEq

/-- A row of `admit_Y1_Y2`. -/
structure AdmissionRow where
  inmate_doc_number : Nat
  sentence_component : Int
  sentence_begin_date : Option String
deriving DecidableEq

/-- A row of `recidivism_Y1_Y2`, the left join of the latest releases with
the prediction-window admissions, carrying the 0/1 recidivism flag. -/
structure RecidRow where
  inmate_doc_number : Nat
  sentence_end_date : Option String
  sentence_begin_date : Option String
  recidivism : Nat
deriving DecidableEq

/-- A row of `recidivism_labels_Y1_Y2`. -/
structure LabelRow where
  inmate_doc_number : Nat
  recidivism : Nat
deriving DecidableEq

/-- `create table sentences_prep as select inmate_doc_number,
cast(inmate_sentence_component as integer), date(...), date(...) from
sentences`. -/
def sentences_prep (src : List RawSentence) : List PrepRow :=
  src.map fun r =>
    { inmate_doc_number := r.inmate_doc_number
      sentence_component := sqliteCastInt r.inmate_sentence_component
      sentence_begin_date := sqliteDate r.sentence_begin_date_raw
      sentence_end_date := sqliteDate r.sentence_end_date_raw }

/-- Lexicographic comparison of character lists; `charListLe a b` decides
`a ≤ b` in the order SQLite's BINARY collation induces on decoded text
(byte-wise comparison of UTF-8 agrees with code-point lexicographic
order). -/
def charListLe : List Char → List Char → Bool
  | [], _ => true
  | _ :: _, [] => false
  | a :: as, b :: bs =>
    if decide (a < b) then true
    else if decide (b < a) then false
    else charListLe as bs

/-- SQLite TEXT comparison `a <= b`. -/
def strLe (a b : String) : Bool := charListLe a.data b.data

/-- The larger of two TEXT values under SQLite's BINARY collation. -/
def strMax (a b : String) : String := if strLe a b then b else a

/-- SQL predicate `lo <= x and x <= hi` on a nullable text value: a NULL
operand makes the comparison non-true, so the row is filtered out. -/
def inWindow (x : Option String) (lo hi : String) : Bool :=
  match x with
  | none => false
  | some v => strLe lo v && strLe v hi

/-- `create temp table release_dates_2000_YYYY as select inmate_doc_number,
sentence_end_date from sentences_prep where sentence_end_date >=
'2000-01-01' and sentence_end_date <= '{features_end}'`. -/
def release_dates (prep : List PrepRow) (features_end : String) : List ReleaseRow :=
  (prep.filter fun r => inWindow r.sentence_end_date "2000-01-01" features_end).map
    fun r => { inmate_doc_number := r.inmate_doc_number
               sentence_end_date := r.sentence_end_date }

/-- De-duplication keeping the first occurrence of each element not already
in `seen`. -/
def dedupFirst {α : Type} [DecidableEq α] : List α → List α → List α
  | _, [] => []
  | seen, x :: xs =>
    if x ∈ seen then dedupFirst seen xs else x :: dedupFirst (x :: seen) xs

/-- SQL `max` aggregate step on nullable text: NULL inputs are ignored. -/
def sqlMax (acc : Option String) (x : Option String) : Option String :=
  match acc, x with
  | none, v => v
  | some a, none => some a
  | some a, some b => some (strMax a b)

/-- The group of rows for one `inmate_doc_number` collapsed to its `max`
aggregate. -/
def lastExitRow (rows : List ReleaseRow) (i : Nat) : ReleaseRow :=
  { inmate_doc_number := i
    sentence_end_date :=
      (rows.filter (·.inmate_doc_number == i)).foldl
        (fun acc r => sqlMax acc r.sentence_end_date) none }

/-- `create temp table last_exit_2000_YYYY as select inmate_doc_number,
max(sentence_end_date) sentence_end_date from release_dates_2000_YYYY group
by inmate_doc_number`. -/
def last_exit (rows : List ReleaseRow) : List ReleaseRow :=
  (dedupFirst [] (rows.map (·.inmate_doc_number))).map (lastExitRow rows)

/-- `create temp table admit_Y1_Y2 as select inmate_doc_number,
sentence_component, sentence_begin_date from sentences_prep where
sentence_begin_date >= '{prediction_start}' and sentence_begin_date <=
'{prediction_end}' and sentence_component = 1`. -/
def admissions (prep : List PrepRow) (prediction_start prediction_end : String) :
    List AdmissionRow :=
  (prep.filter fun r =>
      inWindow r.sentence_begin_date prediction_start prediction_end &&
        (r.sentence_component == 1)).map
    fun r => { inmate_doc_number := r.inmate_doc_number
               sentence_component := r.sentence_component
               sentence_begin_date := r.sentence_begin_date }

/-- `create temp table recidivism_Y1_Y2 as select r.inmate_doc_number,
r.sentence_end_date, a.sentence_begin_date, case when a.sentence_begin_date
is null then 0 else 1 end recidivism from last_exit_2000_YYYY r left join
admit_Y1_Y2 a on r.inmate_doc_number = a.inmate_doc_number`. -/
def recidivism_join (left : List ReleaseRow) (right : List AdmissionRow) :
    List RecidRow :=
  left.flatMap fun r =>
    match right.filter (fun a => a.inmate_doc_number == r.inmate_doc_number) with
    | [] => [{ inmate_doc_number := r.inmate_doc_number
               sentence_end_date := r.sentence_end_date
               sentence_begin_date := none
               recidivism := 0 }]
    | ms => ms.map fun a =>
        { inmate_doc_number := r.inmate_doc_number
          sentence_end_date := r.sentence_end_date
          sentence_begin_date := a.sentence_begin_date
          recidivism := if a.sentence_begin_date = none then 0 else 1 }

/-- `create table recidivism_labels_Y1_Y2 as select distinct
inmate_doc_number, recidivism from recidivism_Y1_Y2`. -/
def recidivism_labels (rows : List RecidRow) : List LabelRow :=
  dedupFirst []
    (rows.map fun r =>
      { inmate_doc_number := r.inmate_doc_number, recidivism := r.recidivism })

/-- Contents of the final label table as a function of the source
`sentences` rows and the three date-string parameters. -/
def labelTable (src : List RawSentence)
    (features_end prediction_start prediction_end : String) : List LabelRow :=
  let prep := sentences_prep src
  recidivism_labels
    (recidivism_join (last_exit (release_dates prep features_end))
      (admissions prep prediction_start prediction_end))

/-- A derived table living in the database, tagged with its row type. -/
inductive DerivedTable where
  | prepT (rows : List PrepRow)
  | releasesT (rows : List ReleaseRow)
  | lastExitT (rows : List ReleaseRow)
  | admissionsT (rows : List AdmissionRow)
  | recidT (rows : List RecidRow)
  | labelsT (rows : List LabelRow)
deriving DecidableEq

/-- One named table in the database; `is_temp` records whether it was
created with `create temp table` (dropped when the connection closes)
rather than `create table` (persistent). -/
structure TableEntry where
  name : String
  is_temp : Bool
  table : DerivedTable
deriving DecidableEq

/-- The SQLite database: the source `sentences` relation plus the named
derived tables. -/
structure Store where
  sentences : List RawSentence
  tables : List TableEntry
deriving DecidableEq

/-- `drop table if exists n`. -/
def dropTable (st : Store) (n : String) : Store :=
  { st with tables := st.tables.filter (fun e => !(e.name == n)) }

/-- The `drop table if exists n; create [temp] table n as ...` pair used for
every step of the script. -/
def createTableAs (st : Store) (n : String) (tmp : Bool) (t : DerivedTable) :
    Store :=
  let st1 := dropTable st n
  { st1 with tables := st1.tables ++ [{ name := n, is_temp := tmp, table := t }] }

/-- Suffix `{Y1}_{Y2}` of the admissions/recidivism table names. -/
def yearSuffix (y1 y2 : Nat) : String := toString y1 ++ "_" ++ toString y2

/-- Name of the release-window table. -/
def releaseName (endX : Nat) : String := "release_dates_2000_" ++ toString endX

/-- Name of the latest-release table. -/
def lastExitName (endX : Nat) : String := "last_exit_2000_" ++ toString endX

/-- Name of the admission-window table. -/
def admissionsName (startY endY : Nat) : String := "admit_" ++ yearSuffix startY endY

/-- Name of the joined-and-flagged table. -/
def recidName (startY endY : Nat) : String :=
  "recidivism_" ++ yearSuffix startY endY

/-- Name of the final label table. -/
def labelsName (startY endY : Nat) : String :=
  "recidivism_labels_" ++ yearSuffix startY endY

/-- The six-statement SQL script of `create_labels`, executed through
`cur.executescript`: every derived table is dropped and recreated from the
current `sentences` relation, with the window boundaries interpolated into
the filters and the parsed years into the table names. -/
def executeScript (st : Store)
    (features_end prediction_start prediction_end : String)
    (endX startY endY : Nat) : Store :=
  let prep := sentences_prep st.sentences
  let rel := release_dates prep features_end
  let lastE := last_exit rel
  let adm := admissions prep prediction_start prediction_end
  let recid := recidivism_join lastE adm
  let lab := recidivism_labels recid
  let st1 := createTableAs st "sentences_prep" false (.prepT prep)
  let st2 := createTableAs st1 (releaseName endX) true (.releasesT rel)
  let st3 := createTableAs st2 (lastExitName endX) true (.lastExitT lastE)
  let st4 := createTableAs st3 (admissionsName startY endY) true (.admissionsT adm)
  let st5 := createTableAs st4 (recidName startY endY) true (.recidT recid)
  createTableAs st5 (labelsName startY endY) false (.labelsT lab)

/-- Name resolution in the database: the entry with the given name. -/
def lookupTable (st : Store) (n : String) : Option DerivedTable :=
  (st.tables.find? (fun e => e.name == n)).map (·.table)

/-- Models `pd.read_sql('select * from recidivism_labels_{Y1}_{Y2}', conn)`:
`none` when the table is absent from the database the connection refers to
(the query would raise). -/
def readLabels (st : Store) (startY endY : Nat) : Option (List LabelRow) :=
  match lookupTable st (labelsName startY endY) with
  | some (.labelsT rows) => some rows
  | _ => none

/-- The `create_labels` function in the ordinary situation in which the
`conn` argument refers to the same database as the module-global cursor:
fuzzy-parse the three date arguments to years (an unparseable argument
raises, modelled by `none`), run the script, read the label table back.
The returned pair is the database after the script and the dataframe. -/
def create_labels (st : Store)
    (features_end prediction_start prediction_end : String) :
    Option (Store × Option (List LabelRow)) := do
  let endX ← parseFuzzyYear features_end
  let startY ← parseFuzzyYear prediction_start
  let endY ← parseFuzzyYear prediction_end
  let st1 := executeScript st features_end prediction_start prediction_end
    endX startY endY
  return (st1, readLabels st1 startY endY)

/-- `create_labels` as literally written: the script is executed through the
module-global cursor `cur` (bound at import time to the notebook's global
connection, here the database `globalSt`), while the final `pd.read_sql`
goes through the `conn` parameter (the database `connSt`).  When the two
handles refer to distinct databases the writes land in `globalSt` only. -/
def create_labels_conn (globalSt connSt : Store)
    (features_end prediction_start prediction_end : String) :
    Option (Store × Store × Option (List LabelRow)) := do
  let endX ← parseFuzzyYear features_end
  let startY ← parseFuzzyYear prediction_start
  let endY ← parseFuzzyYear prediction_end
  let g1 := executeScript globalSt features_end prediction_start prediction_end
    endX startY endY
  return (g1, connSt, readLabels connSt startY endY)

/-- Action of a `drop table if exists n; create table n as ...` pair on the
table list. -/
def dropCreate (l : List TableEntry) (n : String) (tmp : Bool)
    (t : DerivedTable) : List TableEntry :=
  (l.filter fun e => !(e.name == n)) ++ [⟨n, tmp, t⟩]

/-- Sequential application of drop-and-recreate steps. -/
def applyCreates : List TableEntry → List (String × Bool × DerivedTable) →
    List TableEntry
  | l, [] => l
  | l, (n, tmp, t) :: es => applyCreates (dropCreate l n tmp t) es

/-- Package a named payload as a table entry. -/
def toEntry (e : String × Bool × DerivedTable) : TableEntry := ⟨e.1, e.2.1, e.2.2⟩

/-- The six tables the script of `create_labels` creates, in order. -/
def scriptPayloads (src : List RawSentence) (fe ps pe : String)
    (x y1 y2 : Nat) : List (String × Bool × DerivedTable) :=
  let prep := sentences_prep src
  let rel := release_dates prep fe
  let lastE := last_exit rel
  let adm := admissions prep ps pe
  let recid := recidivism_join lastE adm
  let lab := recidivism_labels recid
  [("sentences_prep", false, .prepT prep),
   (releaseName x, true, .releasesT rel),
   (lastExitName x, true, .lastExitT lastE),
   (admissionsName y1 y2, true, .admissionsT adm),
   (recidName y1 y2, true, .recidT recid),
   (labelsName y1 y2, false, .labelsT lab)]

/-- An individual has a qualifying admission when some source sentence row
has component number casting to 1 and a begin date parsing into the
inclusive prediction window. -/
def hasPredictionAdmission (src : List RawSentence) (ps pe : String)
    (i : Nat) : Prop :=
  ∃ s ∈ src, s.inmate_doc_number = i ∧
    sqliteCastInt s.inmate_sentence_component = 1 ∧
    ∃ b, sqliteDate s.sentence_begin_date_raw = some b ∧ ps ≤ b ∧ b ≤ pe

/-- The three-row scenario source of the specification's end-to-end test. -/
def scenarioSource : List RawSentence :=
  [⟨1, "1", "2009-03-01", "2005-06-01"⟩,
   ⟨1, "1", "2010-01-01", "2009-12-31"⟩,
   ⟨2, "1", "2001-01-01", "2003-01-01"⟩]

/-- A source whose only individual has releases strictly before 2000. -/
def pre2000Source : List RawSentence := [⟨5, "1", "1998-01-01", "1999-06-30"⟩]

/-- A source row whose end-date field is not a date. -/
def malformedSource : List RawSentence := [⟨9, "1", "2009-03-01", "NOT A DATE"⟩]

/-! ### Order bridge: the executable comparison agrees with `≤` -/

/-- `charListLe` decides the negation of the lexicographic strict order. -/
theorem charListLe_iff_not_lex : ∀ (as bs : List Char),
    charListLe as bs = true ↔ ¬ List.Lex (· < ·) bs as := by
  intro as
  induction as with
  | nil =>
    intro bs
    constructor
    · intro _ h
      cases h
    · intro _
      rfl
  | cons a as ih =>
    intro bs
    cases bs with
    | nil =>
      constructor
      · intro h
        simp [charListLe] at h
      · intro h
        exact absurd List.Lex.nil h
    | cons b bs =>
      rcases lt_trichotomy a b with hab | hab | hab
      · have hd : decide (a < b) = true := decide_eq_true hab
        simp only [charListLe, hd, if_true]
        constructor
        · intro _ h
          cases h with
          | rel hba => exact lt_asymm hab hba
          | cons h3 => exact lt_irrefl a hab
        · intro _
          trivial
      · subst hab
        have hd : decide (a < a) = false := decide_eq_false (lt_irrefl a)
        simp only [charListLe, hd, Bool.false_eq_true, if_false]
        rw [ih bs]
        constructor
        · intro h hlt
          cases hlt with
          | rel hba => exact lt_irrefl a hba
          | cons h3 => exact h h3
        · intro h hlt
          exact h (List.Lex.cons hlt)
      · have hd1 : decide (a < b) = false := decide_eq_false (lt_asymm hab)
        have hd2 : decide (b < a) = true := decide_eq_true hab
        simp only [charListLe, hd1, hd2, Bool.false_eq_true, if_false, if_true]
        constructor
        · intro h
          simp at h
        · intro h
          exact absurd (List.Lex.rel hab) h

/-- The executable string comparison decides `≤`. -/
theorem strLe_iff {a b : String} : strLe a b = true ↔ a ≤ b := by
  rw [String.le_iff_toList_le, ← not_lt]
  exact charListLe_iff_not_lex a.data b.data

/-- The executable binary maximum is the order-theoretic one. -/
theorem strMax_eq_max (a b : String) : strMax a b = max a b := by
  rw [max_def, strMax]
  by_cases h : a ≤ b
  · simp [strLe_iff.mpr h, h]
  · have hf : strLe a b = false := by
      rw [← Bool.not_eq_true, strLe_iff]
      exact h
    simp [hf, h]

/-! ### List-level lemmas for the pipeline stages -/

theorem mem_dedupFirst {α : Type} [DecidableEq α] (x : α) :
    ∀ (l seen : List α), x ∈ dedupFirst seen l ↔ x ∈ l ∧ x ∉ seen := by
  intro l
  induction l with
  | nil =>
    intro seen
    simp [dedupFirst]
  | cons y ys ih =>
    intro seen
    simp only [dedupFirst]
    by_cases hy : y ∈ seen
    · rw [if_pos hy]
      simp only [ih, List.mem_cons]
      by_cases hxy : x = y
      · subst hxy
        simp [hy]
      · simp [hxy]
    · rw [if_neg hy]
      simp only [List.mem_cons, ih, List.mem_cons]
      by_cases hxy : x = y
      · subst hxy
        simp [hy]
      · simp [hxy]

theorem nodup_dedupFirst {α : Type} [DecidableEq α] :
    ∀ (l seen : List α), (dedupFirst seen l).Nodup := by
  intro l
  induction l with
  | nil =>
    intro seen
    simp [dedupFirst]
  | cons y ys ih =>
    intro seen
    simp only [dedupFirst]
    by_cases hy : y ∈ seen
    · rw [if_pos hy]
      exact ih seen
    · rw [if_neg hy]
      refine List.nodup_cons.mpr ⟨?_, ih (y :: seen)⟩
      intro hmem
      rw [mem_dedupFirst] at hmem
      exact hmem.2 (List.mem_cons_self y seen)

theorem inWindow_iff {x : Option String} {lo hi : String} :
    inWindow x lo hi = true ↔ ∃ v, x = some v ∧ lo ≤ v ∧ v ≤ hi := by
  cases x with
  | none => simp [inWindow]
  | some v => simp [inWindow, Bool.and_eq_true, strLe_iff]

theorem mem_release_dates {prep : List PrepRow} {fe : String} {r : ReleaseRow} :
    r ∈ release_dates prep fe ↔
      ∃ p ∈ prep, inWindow p.sentence_end_date "2000-01-01" fe = true ∧
        r = ⟨p.inmate_doc_number, p.sentence_end_date⟩ := by
  simp only [release_dates, List.mem_map, List.mem_filter]
  constructor
  · rintro ⟨p, ⟨hp, hw⟩, rfl⟩
    exact ⟨p, hp, hw, rfl⟩
  · rintro ⟨p, hp, hw, rfl⟩
    exact ⟨p, ⟨hp, hw⟩, rfl⟩

theorem mem_admissions {prep : List PrepRow} {ps pe : String} {a : AdmissionRow} :
    a ∈ admissions prep ps pe ↔
      ∃ p ∈ prep, inWindow p.sentence_begin_date ps pe = true ∧
        p.sentence_component = 1 ∧
        a = ⟨p.inmate_doc_number, p.sentence_component, p.sentence_begin_date⟩ := by
  simp only [admissions, List.mem_map, List.mem_filter, Bool.and_eq_true, beq_iff_eq]
  constructor
  · rintro ⟨p, ⟨hp, hw, hc⟩, rfl⟩
    exact ⟨p, hp, hw, hc, rfl⟩
  · rintro ⟨p, hp, hw, hc, rfl⟩
    exact ⟨p, ⟨hp, hw, hc⟩, rfl⟩

theorem foldl_sqlMax_mem : ∀ (l : List (Option String)) (acc : Option String)
    (x : String), l.foldl sqlMax acc = some x → acc = some x ∨ some x ∈ l := by
  intro l
  induction l with
  | nil =>
    intro acc x h
    exact Or.inl h
  | cons v l ih =>
    intro acc x h
    rcases ih (sqlMax acc v) x h with h1 | h1
    · cases acc with
      | none =>
        cases v with
        | none => exact Or.inl h1
        | some b =>
          right
          have hb : b = x := Option.some_inj.mp h1
          subst hb
          exact List.mem_cons_self _ _
      | some a =>
        cases v with
        | none => exact Or.inl h1
        | some b =>
          have h2 : some (strMax a b) = some x := h1
          rw [strMax_eq_max] at h2
          rcases max_choice a b with hm | hm
          · left
            rw [hm] at h2
            exact h2
          · right
            rw [hm] at h2
            have hb := Option.some_inj.mp h2
            subst hb
            exact List.mem_cons_self _ _
    · exact Or.inr (List.mem_cons_of_mem _ h1)

theorem foldl_sqlMax_ge_acc : ∀ (l : List (Option String)) (a x : String),
    l.foldl sqlMax (some a) = some x → a ≤ x := by
  intro l
  induction l with
  | nil =>
    intro a x h
    exact le_of_eq (Option.some_inj.mp h)
  | cons v l ih =>
    intro a x h
    cases v with
    | none => exact ih a x h
    | some b =>
      have h' : l.foldl sqlMax (some (strMax a b)) = some x := h
      calc a ≤ strMax a b := by
            rw [strMax_eq_max]
            exact le_max_left a b
        _ ≤ x := ih (strMax a b) x h'

theorem foldl_sqlMax_ge : ∀ (l : List (Option String)) (acc : Option String)
    (x y : String), some y ∈ l → l.foldl sqlMax acc = some x → y ≤ x := by
  intro l
  induction l with
  | nil =>
    intro acc x y hy
    cases hy
  | cons v l ih =>
    intro acc x y hy h
    rcases List.mem_cons.mp hy with hv | hv
    · subst hv
      cases acc with
      | none => exact foldl_sqlMax_ge_acc l y x h
      | some a =>
        have h' : l.foldl sqlMax (some (strMax a y)) = some x := h
        calc y ≤ strMax a y := by
              rw [strMax_eq_max]
              exact le_max_right a y
          _ ≤ x := foldl_sqlMax_ge_acc l (strMax a y) x h'
    · exact ih (sqlMax acc v) x y hv h

theorem foldl_sqlMax_isSome_acc : ∀ (l : List (Option String)) (a : String),
    ∃ x, l.foldl sqlMax (some a) = some x := by
  intro l
  induction l with
  | nil =>
    intro a
    exact ⟨a, rfl⟩
  | cons v l ih =>
    intro a
    cases v with
    | none => exact ih a
    | some b => exact ih (strMax a b)

theorem foldl_sqlMax_exists : ∀ (l : List (Option String)) (acc : Option String)
    (y : String), some y ∈ l → ∃ x, l.foldl sqlMax acc = some x := by
  intro l
  induction l with
  | nil =>
    intro acc y hy
    cases hy
  | cons v l ih =>
    intro acc y hy
    rcases List.mem_cons.mp hy with hv | hv
    · subst hv
      cases acc with
      | none => exact foldl_sqlMax_isSome_acc l y
      | some a => exact foldl_sqlMax_isSome_acc l (strMax a y)
    · exact ih (sqlMax acc v) y hv


theorem mem_recidivism_labels {rows : List RecidRow} {lbl : LabelRow} :
    lbl ∈ recidivism_labels rows ↔
      ∃ rr ∈ rows, lbl = ⟨rr.inmate_doc_number, rr.recidivism⟩ := by
  simp only [recidivism_labels, mem_dedupFirst, List.mem_map,
    List.not_mem_nil, not_false_iff, and_true]
  constructor
  · rintro ⟨rr, hrr, rfl⟩
    exact ⟨rr, hrr, rfl⟩
  · rintro ⟨rr, hrr, rfl⟩
    exact ⟨rr, hrr, rfl⟩

theorem recid_of_left {L : List ReleaseRow} {A : List AdmissionRow}
    {r : ReleaseRow} (hr : r ∈ L) :
    ∃ rr ∈ recidivism_join L A, rr.inmate_doc_number = r.inmate_doc_number := by
  simp only [recidivism_join, List.mem_flatMap]
  cases hA : A.filter (fun a => a.inmate_doc_number == r.inmate_doc_number) with
  | nil =>
    refine ⟨⟨r.inmate_doc_number, r.sentence_end_date, none, 0⟩, ⟨r, hr, ?_⟩, rfl⟩
    rw [hA]
    exact List.mem_singleton_self _
  | cons a as =>
    refine ⟨⟨r.inmate_doc_number, r.sentence_end_date, a.sentence_begin_date,
      if a.sentence_begin_date = none then 0 else 1⟩, ⟨r, hr, ?_⟩, rfl⟩
    rw [hA]
    exact List.mem_map_of_mem _ (List.mem_cons_self a as)

theorem recid_left_id {L : List ReleaseRow} {A : List AdmissionRow}
    {rr : RecidRow} (hrr : rr ∈ recidivism_join L A) :
    ∃ r ∈ L, rr.inmate_doc_number = r.inmate_doc_number ∧
      rr.sentence_end_date = r.sentence_end_date := by
  simp only [recidivism_join, List.mem_flatMap] at hrr
  obtain ⟨r, hrL, hmem⟩ := hrr
  cases hA : A.filter (fun a => a.inmate_doc_number == r.inmate_doc_number) with
  | nil =>
    rw [hA] at hmem
    rcases List.mem_singleton.mp hmem with rfl
    exact ⟨r, hrL, rfl, rfl⟩
  | cons a as =>
    rw [hA] at hmem
    obtain ⟨a', _, rfl⟩ := List.mem_map.mp hmem
    exact ⟨r, hrL, rfl, rfl⟩

theorem recid_val {L : List ReleaseRow} {A : List AdmissionRow} {rr : RecidRow}
    (hA : ∀ a ∈ A, a.sentence_begin_date ≠ none)
    (hrr : rr ∈ recidivism_join L A) :
    (rr.recidivism = 1 ↔ ∃ a ∈ A, a.inmate_doc_number = rr.inmate_doc_number) ∧
      (rr.recidivism = 0 ↔
        ¬ ∃ a ∈ A, a.inmate_doc_number = rr.inmate_doc_number) := by
  simp only [recidivism_join, List.mem_flatMap] at hrr
  obtain ⟨r, hrL, hmem⟩ := hrr
  cases hA2 : A.filter (fun a => a.inmate_doc_number == r.inmate_doc_number) with
  | nil =>
    rw [hA2] at hmem
    rcases List.mem_singleton.mp hmem with rfl
    have hno : ¬ ∃ a ∈ A, a.inmate_doc_number = r.inmate_doc_number := by
      rintro ⟨a, haA, hai⟩
      have : a ∈ A.filter (fun a => a.inmate_doc_number == r.inmate_doc_number) :=
        List.mem_filter.mpr ⟨haA, beq_iff_eq.mpr hai⟩
      rw [hA2] at this
      cases this
    constructor
    · constructor
      · intro h
        cases h
      · intro h
        exact absurd h hno
    · constructor
      · intro _
        exact hno
      · intro _
        trivial
  | cons a as =>
    rw [hA2] at hmem
    obtain ⟨a', ha', rfl⟩ := List.mem_map.mp hmem
    have ha'A : a' ∈ A ∧ a'.inmate_doc_number = r.inmate_doc_number := by
      have := List.mem_filter.mp (hA2 ▸ ha')
      exact ⟨this.1, beq_iff_eq.mp this.2⟩
    have hbeg : a'.sentence_begin_date ≠ none := hA a' ha'A.1
    have hone : (if a'.sentence_begin_date = none then 0 else 1) = 1 :=
      if_neg hbeg
    have hyes : ∃ a ∈ A, a.inmate_doc_number = r.inmate_doc_number :=
      ⟨a', ha'A.1, ha'A.2⟩
    constructor
    · simp only [hone]
      exact ⟨fun _ => hyes, fun _ => trivial⟩
    · simp only [hone]
      constructor
      · intro h
        cases h
      · intro h
        exact absurd hyes h


theorem mem_last_exit {rows : List ReleaseRow} {r : ReleaseRow} :
    r ∈ last_exit rows ↔
      r.inmate_doc_number ∈ dedupFirst [] (rows.map (·.inmate_doc_number)) ∧
      r = lastExitRow rows r.inmate_doc_number := by
  simp only [last_exit, List.mem_map]
  constructor
  · rintro ⟨i, hi, rfl⟩
    exact ⟨hi, rfl⟩
  · rintro ⟨hi, he⟩
    exact ⟨r.inmate_doc_number, hi, he.symm⟩

theorem last_exit_id_mem {rows : List ReleaseRow} {r : ReleaseRow}
    (h : r ∈ last_exit rows) :
    ∃ x ∈ rows, x.inmate_doc_number = r.inmate_doc_number := by
  have h1 := (mem_last_exit.mp h).1
  rw [mem_dedupFirst] at h1
  obtain ⟨x, hx, hxi⟩ := List.mem_map.mp h1.1
  exact ⟨x, hx, hxi⟩

theorem last_exit_of_id {rows : List ReleaseRow} {x : ReleaseRow}
    (hx : x ∈ rows) :
    ∃ r ∈ last_exit rows, r.inmate_doc_number = x.inmate_doc_number := by
  refine ⟨lastExitRow rows x.inmate_doc_number, ?_, rfl⟩
  simp only [last_exit, List.mem_map]
  refine ⟨x.inmate_doc_number, ?_, rfl⟩
  rw [mem_dedupFirst]
  exact ⟨List.mem_map_of_mem _ hx, List.not_mem_nil _⟩

theorem last_exit_count {rows : List ReleaseRow} {i : Nat}
    (h : ∃ x ∈ rows, x.inmate_doc_number = i) :
    (last_exit rows).countP (fun r => r.inmate_doc_number == i) = 1 := by
  obtain ⟨x, hx, rfl⟩ := h
  have hmem : x.inmate_doc_number ∈
      dedupFirst [] (rows.map (·.inmate_doc_number)) := by
    rw [mem_dedupFirst]
    exact ⟨List.mem_map_of_mem _ hx, List.not_mem_nil _⟩
  have hnd := nodup_dedupFirst (rows.map (·.inmate_doc_number)) []
  have h1 : (dedupFirst [] (rows.map (·.inmate_doc_number))).count
      x.inmate_doc_number = 1 := List.count_eq_one_of_mem hnd hmem
  rw [last_exit, List.countP_map]
  have h2 : ∀ j ∈ dedupFirst [] (rows.map (·.inmate_doc_number)),
      ((fun r : ReleaseRow => r.inmate_doc_number == x.inmate_doc_number) ∘
        lastExitRow rows) j ↔ ((j == x.inmate_doc_number) = true) := by
    intro j _
    simp [lastExitRow, Function.comp]
  rw [List.countP_congr h2]
  exact h1


/-! ### Store-level lemmas: drop-and-recreate normal form -/

/-- `createTableAs` acts on the table list by `dropCreate`. -/
theorem createTableAs_eq (st : Store) (n : String) (tmp : Bool)
    (t : DerivedTable) :
    createTableAs st n tmp t =
      { sentences := st.sentences, tables := dropCreate st.tables n tmp t } :=
  rfl

/-- The script is the sequential application of its six drop-and-recreate
steps. -/
theorem executeScript_eq (st : Store) (fe ps pe : String) (x y1 y2 : Nat) :
    executeScript st fe ps pe x y1 y2 =
      { sentences := st.sentences,
        tables := applyCreates st.tables
          (scriptPayloads st.sentences fe ps pe x y1 y2) } :=
  rfl

/-- Normal form of a sequence of drop-and-recreates with distinct names:
the pre-existing entries with other names, then the new entries in order. -/
theorem applyCreates_eq_filter :
    ∀ (es : List (String × Bool × DerivedTable)) (l : List TableEntry),
      (es.map (·.1)).Nodup →
      applyCreates l es =
        (l.filter fun e => !(decide (e.name ∈ es.map (·.1)))) ++
          es.map toEntry := by
  intro es
  induction es with
  | nil =>
    intro l _
    simp [applyCreates]
  | cons e es ih =>
    intro l hnd
    obtain ⟨n, tmp, t⟩ := e
    simp only [List.map_cons, List.nodup_cons] at hnd
    simp only [applyCreates]
    rw [ih _ hnd.2]
    simp only [dropCreate, List.filter_append, List.filter_filter]
    have hE : (decide ((⟨n, tmp, t⟩ : TableEntry).name ∈ es.map (·.1)) : Bool)
        = false := by
      simp only [decide_eq_false_iff_not]
      exact hnd.1
    have hfilterE : ([(⟨n, tmp, t⟩ : TableEntry)].filter
        fun e => !(decide (e.name ∈ es.map (·.1)))) = [⟨n, tmp, t⟩] := by
      simp [hE]
    rw [hfilterE]
    have hcongr : ∀ e' : TableEntry,
        ((!(decide (e'.name ∈ es.map (·.1)))) && !(e'.name == n)) =
          !(decide (e'.name ∈ n :: es.map (·.1))) := by
      intro e'
      by_cases h1 : e'.name = n
      · simp [h1]
      · by_cases h2 : e'.name ∈ es.map (·.1)
        · simp [h1, h2]
        · simp [h1, h2]
    have hflt : (l.filter fun e' =>
        ((!(decide (e'.name ∈ es.map (·.1)))) && !(e'.name == n))) =
          l.filter fun e' => !(decide (e'.name ∈ n :: es.map (·.1))) :=
      List.filter_congr (fun e' _ => by rw [hcongr e'])
    rw [hflt]
    simp [List.map_cons, toEntry]

/-- Re-running a sequence of drop-and-recreates with the same payloads and
distinct names leaves the table list unchanged. -/
theorem applyCreates_idem (es : List (String × Bool × DerivedTable))
    (l : List TableEntry) (hnd : (es.map (·.1)).Nodup) :
    applyCreates (applyCreates l es) es = applyCreates l es := by
  rw [applyCreates_eq_filter es l hnd, applyCreates_eq_filter es _ hnd]
  congr 1
  rw [List.filter_append]
  have h1 : ((l.filter fun e => !(decide (e.name ∈ es.map (·.1)))).filter
      fun e => !(decide (e.name ∈ es.map (·.1)))) =
        l.filter fun e => !(decide (e.name ∈ es.map (·.1))) :=
    List.filter_eq_self.mpr (fun a ha => (List.mem_filter.mp ha).2)
  have h2 : ((es.map toEntry).filter
      fun e => !(decide (e.name ∈ es.map (·.1)))) = [] := by
    rw [List.filter_eq_nil_iff]
    intro a ha
    obtain ⟨e, he, rfl⟩ := List.mem_map.mp ha
    simp only [toEntry, Bool.not_eq_true', decide_eq_false_iff_not, not_not]
    exact List.mem_map_of_mem _ he
  rw [h1, h2, List.append_nil]

/-- Two string concatenations with constant prefixes differing at index `i`
are distinct, whatever the suffixes. -/
theorem strAppend_ne (p q a b : String) (i : Nat)
    (h1 : i < p.data.length) (h2 : i < q.data.length)
    (hne : p.data[i]? ≠ q.data[i]?) : p ++ a ≠ q ++ b := by
  intro he
  apply hne
  have hd : p.data ++ a.data = q.data ++ b.data := by
    have h3 := congrArg String.data he
    simpa [String.data_append] using h3
  calc p.data[i]? = (p.data ++ a.data)[i]? := (List.getElem?_append_left h1).symm
    _ = (q.data ++ b.data)[i]? := by rw [hd]
    _ = q.data[i]? := List.getElem?_append_left h2

/-- Two string concatenations with a common suffix and prefixes of distinct
lengths are distinct. -/
theorem strAppend_ne_len (p q s : String) (h : p.length ≠ q.length) :
    p ++ s ≠ q ++ s := by
  intro he
  apply h
  have h3 := congrArg String.length he
  rw [String.length_append, String.length_append] at h3
  omega

/-- The six table names created by one script run are pairwise distinct. -/
theorem name_ne_12 (x : Nat) : "sentences_prep" ≠ releaseName x := by
  have h := strAppend_ne "sentences_prep" "release_dates_2000_" "" (toString x)
    0 (by decide) (by decide) (by decide)
  simpa [releaseName] using h

/-- Name disjointness: `sentences_prep` vs the latest-release table. -/
theorem name_ne_13 (x : Nat) : "sentences_prep" ≠ lastExitName x := by
  have h := strAppend_ne "sentences_prep" "last_exit_2000_" "" (toString x)
    0 (by decide) (by decide) (by decide)
  simpa [lastExitName] using h

/-- Name disjointness: `sentences_prep` vs the admissions table. -/
theorem name_ne_14 (y1 y2 : Nat) : "sentences_prep" ≠ admissionsName y1 y2 := by
  have h := strAppend_ne "sentences_prep" "admit_" "" (yearSuffix y1 y2)
    0 (by decide) (by decide) (by decide)
  simpa [admissionsName] using h

/-- Name disjointness: `sentences_prep` vs the join table. -/
theorem name_ne_15 (y1 y2 : Nat) : "sentences_prep" ≠ recidName y1 y2 := by
  have h := strAppend_ne "sentences_prep" "recidivism_" "" (yearSuffix y1 y2)
    0 (by decide) (by decide) (by decide)
  simpa [recidName] using h

/-- Name disjointness: `sentences_prep` vs the label table. -/
theorem name_ne_16 (y1 y2 : Nat) : "sentences_prep" ≠ labelsName y1 y2 := by
  have h := strAppend_ne "sentences_prep" "recidivism_labels_" ""
    (yearSuffix y1 y2) 0 (by decide) (by decide) (by decide)
  simpa [labelsName] using h

/-- Name disjointness: release-window table vs latest-release table. -/
theorem name_ne_23 (x : Nat) : releaseName x ≠ lastExitName x := by
  have h := strAppend_ne "release_dates_2000_" "last_exit_2000_" (toString x)
    (toString x) 0 (by decide) (by decide) (by decide)
  simpa [releaseName, lastExitName] using h

/-- Name disjointness: release-window table vs admissions table. -/
theorem name_ne_24 (x y1 y2 : Nat) : releaseName x ≠ admissionsName y1 y2 := by
  have h := strAppend_ne "release_dates_2000_" "admit_" (toString x)
    (yearSuffix y1 y2) 0 (by decide) (by decide) (by decide)
  simpa [releaseName, admissionsName] using h

/-- Name disjointness: release-window table vs join table. -/
theorem name_ne_25 (x y1 y2 : Nat) : releaseName x ≠ recidName y1 y2 := by
  have h := strAppend_ne "release_dates_2000_" "recidivism_" (toString x)
    (yearSuffix y1 y2) 2 (by decide) (by decide) (by decide)
  simpa [releaseName, recidName] using h

/-- Name disjointness: release-window table vs label table. -/
theorem name_ne_26 (x y1 y2 : Nat) : releaseName x ≠ labelsName y1 y2 := by
  have h := strAppend_ne "release_dates_2000_" "recidivism_labels_"
    (toString x) (yearSuffix y1 y2) 2 (by decide) (by decide) (by decide)
  simpa [releaseName, labelsName] using h

/-- Name disjointness: latest-release table vs admissions table. -/
theorem name_ne_34 (x y1 y2 : Nat) : lastExitName x ≠ admissionsName y1 y2 := by
  have h := strAppend_ne "last_exit_2000_" "admit_" (toString x)
    (yearSuffix y1 y2) 0 (by decide) (by decide) (by decide)
  simpa [lastExitName, admissionsName] using h

/-- Name disjointness: latest-release table vs join table. -/
theorem name_ne_35 (x y1 y2 : Nat) : lastExitName x ≠ recidName y1 y2 := by
  have h := strAppend_ne "last_exit_2000_" "recidivism_" (toString x)
    (yearSuffix y1 y2) 0 (by decide) (by decide) (by decide)
  simpa [lastExitName, recidName] using h

/-- Name disjointness: latest-release table vs label table. -/
theorem name_ne_36 (x y1 y2 : Nat) : lastExitName x ≠ labelsName y1 y2 := by
  have h := strAppend_ne "last_exit_2000_" "recidivism_labels_" (toString x)
    (yearSuffix y1 y2) 0 (by decide) (by decide) (by decide)
  simpa [lastExitName, labelsName] using h

/-- Name disjointness: admissions table vs join table. -/
theorem name_ne_45 (y1 y2 : Nat) : admissionsName y1 y2 ≠ recidName y1 y2 := by
  have h := strAppend_ne "admit_" "recidivism_" (yearSuffix y1 y2)
    (yearSuffix y1 y2) 0 (by decide) (by decide) (by decide)
  simpa [admissionsName, recidName] using h

/-- Name disjointness: admissions table vs label table. -/
theorem name_ne_46 (y1 y2 : Nat) : admissionsName y1 y2 ≠ labelsName y1 y2 := by
  have h := strAppend_ne "admit_" "recidivism_labels_" (yearSuffix y1 y2)
    (yearSuffix y1 y2) 0 (by decide) (by decide) (by decide)
  simpa [admissionsName, labelsName] using h

/-- Name disjointness: join table vs label table. -/
theorem name_ne_56 (y1 y2 : Nat) : recidName y1 y2 ≠ labelsName y1 y2 := by
  have h := strAppend_ne_len "recidivism_" "recidivism_labels_"
    (yearSuffix y1 y2) (by decide)
  simpa [recidName, labelsName] using h

/-- The six names of one script run form a duplicate-free list. -/
theorem scriptNames_nodup (src : List RawSentence) (fe ps pe : String)
    (x y1 y2 : Nat) :
    ((scriptPayloads src fe ps pe x y1 y2).map (·.1)).Nodup := by
  have hmap : (scriptPayloads src fe ps pe x y1 y2).map (·.1) =
      ["sentences_prep", releaseName x, lastExitName x, admissionsName y1 y2,
        recidName y1 y2, labelsName y1 y2] := rfl
  rw [hmap]
  simp only [List.nodup_cons, List.mem_cons, List.mem_singleton,
    List.not_mem_nil, List.nodup_nil, not_or, and_true, not_false_iff]
  exact ⟨⟨name_ne_12 x, name_ne_13 x, name_ne_14 y1 y2, name_ne_15 y1 y2,
      name_ne_16 y1 y2⟩,
    ⟨name_ne_23 x, name_ne_24 x y1 y2, name_ne_25 x y1 y2, name_ne_26 x y1 y2⟩,
    ⟨name_ne_34 x y1 y2, name_ne_35 x y1 y2, name_ne_36 x y1 y2⟩,
    ⟨name_ne_45 y1 y2, name_ne_46 y1 y2⟩, name_ne_56 y1 y2⟩

/-- The script reads but never writes the `sentences` relation. -/
theorem executeScript_sentences (st : Store) (fe ps pe : String)
    (x y1 y2 : Nat) :
    (executeScript st fe ps pe x y1 y2).sentences = st.sentences := rfl

/-- Running the script twice with the same parameters over the same source
leaves the database exactly as after the first run. -/
theorem executeScript_idem (st : Store) (fe ps pe : String) (x y1 y2 : Nat) :
    executeScript (executeScript st fe ps pe x y1 y2) fe ps pe x y1 y2 =
      executeScript st fe ps pe x y1 y2 := by
  have h := applyCreates_idem (scriptPayloads st.sentences fe ps pe x y1 y2)
    st.tables (scriptNames_nodup st.sentences fe ps pe x y1 y2)
  rw [executeScript_eq st fe ps pe x y1 y2, executeScript_eq]
  congr 1

/-- `find?` skips a prefix on which it fails. -/
theorem find?_append_none {α : Type} (p : α → Bool) :
    ∀ (l1 l2 : List α), l1.find? p = none →
      (l1 ++ l2).find? p = l2.find? p := by
  intro l1
  induction l1 with
  | nil =>
    intro l2 _
    rfl
  | cons a l ih =>
    intro l2 h
    rw [List.find?_eq_none] at h
    rw [List.cons_append,
      List.find?_cons_of_neg _ (h a (List.mem_cons_self a l))]
    apply ih
    rw [List.find?_eq_none]
    intro x hx
    exact h x (List.mem_cons_of_mem _ hx)

/-- After the script, name resolution of the label table finds the
persistent entry holding the computed labels. -/
theorem find?_labels (st : Store) (fe ps pe : String) (x y1 y2 : Nat) :
    (executeScript st fe ps pe x y1 y2).tables.find?
        (fun e => e.name == labelsName y1 y2) =
      some ⟨labelsName y1 y2, false,
        .labelsT (labelTable st.sentences fe ps pe)⟩ := by
  rw [executeScript_eq]
  show (applyCreates st.tables
      (scriptPayloads st.sentences fe ps pe x y1 y2)).find?
        (fun e => e.name == labelsName y1 y2) = _
  rw [applyCreates_eq_filter _ _ (scriptNames_nodup st.sentences fe ps pe x y1 y2)]
  have hnone : ((st.tables.filter fun e =>
      !(decide (e.name ∈ (scriptPayloads st.sentences fe ps pe x y1 y2).map (·.1)))).find?
        (fun e => e.name == labelsName y1 y2)) = none := by
    rw [List.find?_eq_none]
    intro e he hbeq
    have h2 := (List.mem_filter.mp he).2
    simp only [Bool.not_eq_true', decide_eq_false_iff_not] at h2
    apply h2
    rw [beq_iff_eq] at hbeq
    rw [hbeq]
    have hm : (scriptPayloads st.sentences fe ps pe x y1 y2).map (·.1) =
        ["sentences_prep", releaseName x, lastExitName x, admissionsName y1 y2,
          recidName y1 y2, labelsName y1 y2] := rfl
    rw [hm]
    simp
  rw [find?_append_none _ _ _ hnone]
  have hmap : (scriptPayloads st.sentences fe ps pe x y1 y2).map toEntry =
      (⟨"sentences_prep", false, .prepT (sentences_prep st.sentences)⟩ :
        TableEntry) ::
      ⟨releaseName x, true,
        .releasesT (release_dates (sentences_prep st.sentences) fe)⟩ ::
      ⟨lastExitName x, true,
        .lastExitT (last_exit (release_dates (sentences_prep st.sentences) fe))⟩ ::
      ⟨admissionsName y1 y2, true,
        .admissionsT (admissions (sentences_prep st.sentences) ps pe)⟩ ::
      ⟨recidName y1 y2, true,
        .recidT (recidivism_join
          (last_exit (release_dates (sentences_prep st.sentences) fe))
          (admissions (sentences_prep st.sentences) ps pe))⟩ ::
      [⟨labelsName y1 y2, false,
        .labelsT (labelTable st.sentences fe ps pe)⟩] := rfl
  rw [hmap]
  rw [List.find?_cons_of_neg _ (by
    simp only [beq_iff_eq]
    exact name_ne_16 y1 y2)]
  rw [List.find?_cons_of_neg _ (by
    simp only [beq_iff_eq]
    exact name_ne_26 x y1 y2)]
  rw [List.find?_cons_of_neg _ (by
    simp only [beq_iff_eq]
    exact name_ne_36 x y1 y2)]
  rw [List.find?_cons_of_neg _ (by
    simp only [beq_iff_eq]
    exact name_ne_46 y1 y2)]
  rw [List.find?_cons_of_neg _ (by
    simp only [beq_iff_eq]
    exact name_ne_56 y1 y2)]
  rw [List.find?_cons_of_pos _ (by simp)]

/-- Reading the label table after the script yields the computed labels. -/
theorem readLabels_executeScript (st : Store) (fe ps pe : String)
    (x y1 y2 : Nat) :
    readLabels (executeScript st fe ps pe x y1 y2) y1 y2 =
      some (labelTable st.sentences fe ps pe) := by
  rw [readLabels, lookupTable, find?_labels]
  rfl


/-! ### Helper lemmas for the claim theorems -/

/-- Successful run of `create_labels`: parseable arguments produce the
script-mutated store and the computed label table. -/
theorem create_labels_eq (st : Store) (fe ps pe : String) (x y1 y2 : Nat)
    (hx : parseFuzzyYear fe = some x) (h1 : parseFuzzyYear ps = some y1)
    (h2 : parseFuzzyYear pe = some y2) :
    create_labels st fe ps pe =
      some (executeScript st fe ps pe x y1 y2,
        some (labelTable st.sentences fe ps pe)) := by
  rw [create_labels, hx, Option.bind_eq_bind, Option.some_bind, h1,
    Option.some_bind, h2, Option.some_bind]
  show some (executeScript st fe ps pe x y1 y2,
      readLabels (executeScript st fe ps pe x y1 y2) y1 y2) = _
  rw [readLabels_executeScript st fe ps pe x y1 y2]

/-- Inversion of a successful `create_labels` run. -/
theorem create_labels_inv (st : Store) (fe ps pe : String) (st' : Store)
    (df : Option (List LabelRow))
    (h : create_labels st fe ps pe = some (st', df)) :
    ∃ x y1 y2, parseFuzzyYear fe = some x ∧ parseFuzzyYear ps = some y1 ∧
      parseFuzzyYear pe = some y2 ∧ st' = executeScript st fe ps pe x y1 y2 ∧
      df = some (labelTable st.sentences fe ps pe) := by
  cases hx : parseFuzzyYear fe with
  | none =>
    rw [create_labels, hx] at h
    simp at h
  | some x =>
    cases h1 : parseFuzzyYear ps with
    | none =>
      rw [create_labels, hx, h1] at h
      simp at h
    | some y1 =>
      cases h2 : parseFuzzyYear pe with
      | none =>
        rw [create_labels, hx, h1, h2] at h
        simp at h
      | some y2 =>
        rw [create_labels_eq st fe ps pe x y1 y2 hx h1 h2] at h
        have h3 := Option.some_inj.mp h
        have hst := congrArg Prod.fst h3
        have hdf := congrArg Prod.snd h3
        exact ⟨x, y1, y2, rfl, rfl, rfl, hst.symm, hdf.symm⟩

/-- Every admission row carries a non-NULL begin date: the window filter
discards NULL. -/
theorem admissions_begin_ne_none {prep : List PrepRow} {ps pe : String}
    {a : AdmissionRow} (ha : a ∈ admissions prep ps pe) :
    a.sentence_begin_date ≠ none := by
  obtain ⟨p, _, hw, _, rfl⟩ := mem_admissions.mp ha
  obtain ⟨b, hb, _, _⟩ := inWindow_iff.mp hw
  simp [hb]

/-- The admissions relation is inhabited for an individual exactly when that
individual has a qualifying admission in the source. -/
theorem hasAdmissions_iff (src : List RawSentence) (ps pe : String) (i : Nat) :
    (∃ a ∈ admissions (sentences_prep src) ps pe, a.inmate_doc_number = i) ↔
      hasPredictionAdmission src ps pe i := by
  constructor
  · rintro ⟨a, ha, hai⟩
    obtain ⟨p, hp, hw, hc, rfl⟩ := mem_admissions.mp ha
    obtain ⟨s, hs, rfl⟩ := List.mem_map.mp hp
    obtain ⟨b, hb, hlo, hhi⟩ := inWindow_iff.mp hw
    simp only at hai hc hb
    exact ⟨s, hs, hai, by exact_mod_cast hc, b, hb, hlo, hhi⟩
  · rintro ⟨s, hs, hid, hc, b, hb, hlo, hhi⟩
    refine ⟨⟨i, 1, sqliteDate s.sentence_begin_date_raw⟩, ?_, rfl⟩
    rw [mem_admissions]
    refine ⟨⟨s.inmate_doc_number, sqliteCastInt s.inmate_sentence_component,
      sqliteDate s.sentence_begin_date_raw, sqliteDate s.sentence_end_date_raw⟩,
      List.mem_map_of_mem _ hs, ?_, ?_, ?_⟩
    · rw [inWindow_iff]
      exact ⟨b, hb, hlo, hhi⟩
    · exact hc
    · simp [hid, hc]

/-- Membership in the label table, unfolded to the join relation. -/
theorem mem_labelTable (src : List RawSentence) (fe ps pe : String)
    (lbl : LabelRow) :
    lbl ∈ labelTable src fe ps pe ↔
      ∃ rr ∈ recidivism_join
          (last_exit (release_dates (sentences_prep src) fe))
          (admissions (sentences_prep src) ps pe),
        lbl = ⟨rr.inmate_doc_number, rr.recidivism⟩ := by
  rw [labelTable]
  exact mem_recidivism_labels


/-- Core label characterization: an individual present in the latest-release
relation gets label 1 exactly when a qualifying admission exists, and label
0 exactly otherwise. -/
theorem labelTable_one_iff (src : List RawSentence) (fe ps pe : String)
    (i : Nat)
    (hrel : ∃ r ∈ last_exit (release_dates (sentences_prep src) fe),
      r.inmate_doc_number = i) :
    (((⟨i, 1⟩ : LabelRow) ∈ labelTable src fe ps pe) ↔
      hasPredictionAdmission src ps pe i) ∧
    (((⟨i, 0⟩ : LabelRow) ∈ labelTable src fe ps pe) ↔
      ¬ hasPredictionAdmission src ps pe i) := by
  obtain ⟨r, hrL, hri⟩ := hrel
  have hA : ∀ a ∈ admissions (sentences_prep src) ps pe,
      a.sentence_begin_date ≠ none := fun a ha => admissions_begin_ne_none ha
  by_cases hadm : ∃ a ∈ admissions (sentences_prep src) ps pe,
      a.inmate_doc_number = i
  · obtain ⟨rr, hrr, hrri⟩ :=
      recid_of_left (A := admissions (sentences_prep src) ps pe) hrL
    rw [hri] at hrri
    have h1 : rr.recidivism = 1 := by
      refine (recid_val hA hrr).1.mpr ?_
      rw [hrri]
      exact hadm
    have hmem1 : (⟨i, 1⟩ : LabelRow) ∈ labelTable src fe ps pe := by
      rw [mem_labelTable]
      refine ⟨rr, hrr, ?_⟩
      rw [hrri, h1]
    have hmem0 : (⟨i, 0⟩ : LabelRow) ∉ labelTable src fe ps pe := by
      rw [mem_labelTable]
      rintro ⟨rr', hrr', heq⟩
      have hid : rr'.inmate_doc_number = i :=
        (congrArg LabelRow.inmate_doc_number heq).symm
      have hv : rr'.recidivism = 0 :=
        (congrArg LabelRow.recidivism heq).symm
      apply (recid_val hA hrr').2.mp hv
      rw [hid]
      exact hadm
    constructor
    · exact ⟨fun _ => (hasAdmissions_iff src ps pe i).mp hadm, fun _ => hmem1⟩
    · constructor
      · intro h
        exact absurd h hmem0
      · intro h
        exact absurd ((hasAdmissions_iff src ps pe i).mp hadm) h
  · obtain ⟨rr, hrr, hrri⟩ :=
      recid_of_left (A := admissions (sentences_prep src) ps pe) hrL
    rw [hri] at hrri
    have h0 : rr.recidivism = 0 := by
      refine (recid_val hA hrr).2.mpr ?_
      rw [hrri]
      exact hadm
    have hmem0 : (⟨i, 0⟩ : LabelRow) ∈ labelTable src fe ps pe := by
      rw [mem_labelTable]
      refine ⟨rr, hrr, ?_⟩
      rw [hrri, h0]
    have hmem1 : (⟨i, 1⟩ : LabelRow) ∉ labelTable src fe ps pe := by
      rw [mem_labelTable]
      rintro ⟨rr', hrr', heq⟩
      have hid : rr'.inmate_doc_number = i :=
        (congrArg LabelRow.inmate_doc_number heq).symm
      have hv : rr'.recidivism = 1 :=
        (congrArg LabelRow.recidivism heq).symm
      apply hadm
      have := (recid_val hA hrr').1.mp hv
      rw [hid] at this
      exact this
    constructor
    · constructor
      · intro h
        exact absurd h hmem1
      · intro h
        exact absurd ((hasAdmissions_iff src ps pe i).mpr h) hadm
    · refine ⟨fun _ hp => hadm ((hasAdmissions_iff src ps pe i).mpr hp), fun _ => hmem0⟩


/-- Two label rows for the same individual are equal: the 0/1 flag is a
function of the individual alone. -/
theorem labelTable_value_eq (src : List RawSentence) (fe ps pe : String)
    {a b : LabelRow} (ha : a ∈ labelTable src fe ps pe)
    (hb : b ∈ labelTable src fe ps pe)
    (hid : a.inmate_doc_number = b.inmate_doc_number) : a = b := by
  rw [mem_labelTable] at ha hb
  obtain ⟨ra, hra, rfl⟩ := ha
  obtain ⟨rb, hrb, rfl⟩ := hb
  have hA : ∀ x ∈ admissions (sentences_prep src) ps pe,
      x.sentence_begin_date ≠ none := fun x hx => admissions_begin_ne_none hx
  simp only at hid
  by_cases hadm : ∃ x ∈ admissions (sentences_prep src) ps pe,
      x.inmate_doc_number = ra.inmate_doc_number
  · have h1 : ra.recidivism = 1 := (recid_val hA hra).1.mpr hadm
    have h2 : rb.recidivism = 1 := by
      refine (recid_val hA hrb).1.mpr ?_
      rw [← hid]
      exact hadm
    simp [h1, h2, hid]
  · have h1 : ra.recidivism = 0 := (recid_val hA hra).2.mpr hadm
    have h2 : rb.recidivism = 0 := by
      refine (recid_val hA hrb).2.mpr ?_
      rw [← hid]
      exact hadm
    simp [h1, h2, hid]

/-- No two rows of the label table share an `inmate_doc_number`. -/
theorem labelTable_pairwise (src : List RawSentence) (fe ps pe : String) :
    (labelTable src fe ps pe).Pairwise
      (fun a b => a.inmate_doc_number ≠ b.inmate_doc_number) := by
  have hnd : (labelTable src fe ps pe).Nodup := nodup_dedupFirst _ _
  refine List.Pairwise.imp_of_mem ?_ hnd
  intro a b ha hb hab hid
  exact hab (labelTable_value_eq src fe ps pe ha hb hid)

/-- C2: for every individual with at least one release inside the
historical window, the last-exit aggregation produces exactly one row for
that individual, and its `sentence_end_date` is the maximum
`sentence_end_date` among that individual's in-window release rows. -/
theorem claim_C2_last_exit_unique_max (src : List RawSentence) (fe : String) (i : Nat)
    (h : ∃ r ∈ release_dates (sentences_prep src) fe,
      r.inmate_doc_number = i) :
    ((last_exit (release_dates (sentences_prep src) fe)).countP
        (fun r => r.inmate_doc_number == i) = 1) ∧
    ∃ e : String,
      (⟨i, some e⟩ : ReleaseRow) ∈
        last_exit (release_dates (sentences_prep src) fe) ∧
      (∃ r ∈ release_dates (sentences_prep src) fe,
        r.inmate_doc_number = i ∧ r.sentence_end_date = some e) ∧
      (∀ r ∈ release_dates (sentences_prep src) fe,
        r.inmate_doc_number = i →
        ∀ e', r.sentence_end_date = some e' → e' ≤ e) := by
  constructor
  · exact last_exit_count h
  · obtain ⟨r, hrm, hri⟩ := h
    have hsome : ∀ x ∈ (release_dates (sentences_prep src) fe).filter
        (·.inmate_doc_number == i), ∃ v, x.sentence_end_date = some v := by
      intro x hx
      have hxm := (List.mem_filter.mp hx).1
      obtain ⟨p, _, hw, hxeq⟩ := mem_release_dates.mp hxm
      obtain ⟨v, hv, _, _⟩ := inWindow_iff.mp hw
      refine ⟨v, ?_⟩
      rw [hxeq]
      exact hv
    have hrf : r ∈ (release_dates (sentences_prep src) fe).filter
        (·.inmate_doc_number == i) :=
      List.mem_filter.mpr ⟨hrm, beq_iff_eq.mpr hri⟩
    obtain ⟨vr, hvr⟩ := hsome r hrf
    have hfold : ((release_dates (sentences_prep src) fe).filter
        (·.inmate_doc_number == i)).foldl
          (fun acc x => sqlMax acc x.sentence_end_date) none =
        (((release_dates (sentences_prep src) fe).filter
          (·.inmate_doc_number == i)).map (·.sentence_end_date)).foldl
            sqlMax none := by
      rw [List.foldl_map]
    have hvmem : (some vr : Option String) ∈
        ((release_dates (sentences_prep src) fe).filter
          (·.inmate_doc_number == i)).map (·.sentence_end_date) := by
      rw [← hvr]
      exact List.mem_map_of_mem _ hrf
    obtain ⟨e, he⟩ := foldl_sqlMax_exists _ none vr hvmem
    refine ⟨e, ?_, ?_, ?_⟩
    · have : lastExitRow (release_dates (sentences_prep src) fe) i ∈
          last_exit (release_dates (sentences_prep src) fe) := by
        simp only [last_exit, List.mem_map]
        refine ⟨i, ?_, rfl⟩
        rw [mem_dedupFirst]
        constructor
        · rw [List.mem_map]
          exact ⟨r, hrm, hri⟩
        · exact List.not_mem_nil _
      have heq : lastExitRow (release_dates (sentences_prep src) fe) i =
          ⟨i, some e⟩ := by
        rw [lastExitRow]
        have h2 : ((release_dates (sentences_prep src) fe).filter
            (·.inmate_doc_number == i)).foldl
              (fun acc x => sqlMax acc x.sentence_end_date) none = some e := by
          rw [hfold]
          exact he
        rw [h2]
      rw [← heq]
      exact this
    · rcases foldl_sqlMax_mem _ none e he with h3 | h3
      · cases h3
      · obtain ⟨x, hx, hxe⟩ := List.mem_map.mp h3
        have hxm := (List.mem_filter.mp hx).1
        have hxi := beq_iff_eq.mp (List.mem_filter.mp hx).2
        exact ⟨x, hxm, hxi, hxe⟩
    · intro x hxm hxi e' he'
      have hxf : x ∈ (release_dates (sentences_prep src) fe).filter
          (·.inmate_doc_number == i) :=
        List.mem_filter.mpr ⟨hxm, beq_iff_eq.mpr hxi⟩
      have hmem : (some e' : Option String) ∈
          ((release_dates (sentences_prep src) fe).filter
            (·.inmate_doc_number == i)).map (·.sentence_end_date) := by
        rw [← he']
        exact List.mem_map_of_mem _ hxf
      exact foldl_sqlMax_ge _ none e e' hmem he


/-- Release rows always carry a parsed (non-NULL) end date. -/
theorem release_end_ne_none {prep : List PrepRow} {fe : String}
    {r : ReleaseRow} (hr : r ∈ release_dates prep fe) :
    r.sentence_end_date ≠ none := by
  obtain ⟨p, _, hw, hreq⟩ := mem_release_dates.mp hr
  obtain ⟨v, hv, _, _⟩ := inWindow_iff.mp hw
  rw [hreq]
  simp [hv]

/-- An individual without a release row has no label row. -/
theorem labelTable_not_mem_of_no_release (src : List RawSentence)
    (fe ps pe : String) (i : Nat)
    (h : ∀ r ∈ release_dates (sentences_prep src) fe,
      r.inmate_doc_number ≠ i) :
    ∀ v, (⟨i, v⟩ : LabelRow) ∉ labelTable src fe ps pe := by
  intro v hmem
  rw [mem_labelTable] at hmem
  obtain ⟨rr, hrr, heq⟩ := hmem
  have hid : rr.inmate_doc_number = i :=
    (congrArg LabelRow.inmate_doc_number heq).symm
  obtain ⟨r, hrL, hrid, _⟩ := recid_left_id hrr
  obtain ⟨x, hx, hxi⟩ := last_exit_id_mem hrL
  apply h x hx
  rw [hxi, ← hrid, hid]

/-- Successful run of `create_labels_conn`: the writes land in the global
cursor's database, the read goes to `conn`'s. -/
theorem create_labels_conn_eq (g c : Store) (fe ps pe : String)
    (x y1 y2 : Nat) (hx : parseFuzzyYear fe = some x)
    (h1 : parseFuzzyYear ps = some y1) (h2 : parseFuzzyYear pe = some y2) :
    create_labels_conn g c fe ps pe =
      some (executeScript g fe ps pe x y1 y2, c, readLabels c y1 y2) := by
  rw [create_labels_conn, hx, Option.bind_eq_bind, Option.some_bind, h1,
    Option.some_bind, h2, Option.some_bind]
  rfl

/-- C1: for every individual with a LatestRelease row, the recidivism label
produced by `create_labels` is 1 iff the individual has at least one
sentence record with component number 1 whose begin date lies within the
inclusive prediction window; otherwise the label is 0. -/
theorem claim_C1_label_iff_prediction_admission (st : Store)
    (fe ps pe : String) (st' : Store) (L : List LabelRow) (i : Nat)
    (hcl : create_labels st fe ps pe = some (st', some L))
    (hrel : ∃ r ∈ last_exit (release_dates (sentences_prep st.sentences) fe),
      r.inmate_doc_number = i) :
    (((⟨i, 1⟩ : LabelRow) ∈ L) ↔
      hasPredictionAdmission st.sentences ps pe i) ∧
    (((⟨i, 0⟩ : LabelRow) ∈ L) ↔
      ¬ hasPredictionAdmission st.sentences ps pe i) := by
  obtain ⟨x, y1, y2, _, _, _, _, hdf⟩ :=
    create_labels_inv st fe ps pe st' (some L) hcl
  rw [Option.some_inj.mp hdf]
  exact labelTable_one_iff st.sentences fe ps pe i hrel

/-- Witness for C1 at the scenario database, individual 1. -/
theorem claim_C1_witness :
    (((⟨1, 1⟩ : LabelRow) ∈
        labelTable scenarioSource "2008-12-31" "2009-01-01" "2013-12-31") ↔
      hasPredictionAdmission scenarioSource "2009-01-01" "2013-12-31" 1) ∧
    (((⟨1, 0⟩ : LabelRow) ∈
        labelTable scenarioSource "2008-12-31" "2009-01-01" "2013-12-31") ↔
      ¬ hasPredictionAdmission scenarioSource "2009-01-01" "2013-12-31" 1) :=
  claim_C1_label_iff_prediction_admission ⟨scenarioSource, []⟩
    "2008-12-31" "2009-01-01" "2013-12-31"
    (executeScript ⟨scenarioSource, []⟩ "2008-12-31" "2009-01-01" "2013-12-31"
      2008 2009 2013)
    (labelTable scenarioSource "2008-12-31" "2009-01-01" "2013-12-31") 1
    (create_labels_eq ⟨scenarioSource, []⟩ "2008-12-31" "2009-01-01"
      "2013-12-31" 2008 2009 2013 (by decide) (by decide) (by decide))
    (by decide)


/-- Witness for C2 at the scenario database, individual 1. -/
theorem claim_C2_witness :
    (last_exit (release_dates (sentences_prep scenarioSource) "2008-12-31")).countP
      (fun r => r.inmate_doc_number == 1) = 1 :=
  (claim_C2_last_exit_unique_max scenarioSource "2008-12-31" 1 (by decide)).1

/-- C3: the final label relation produced by `create_labels` contains no
two rows with the same individual identifier: the DISTINCT on the pair
(inmate_doc_number, recidivism) yields a unique row per individual because
the label value is a function of the individual. -/
theorem claim_C3_label_ids_unique (st : Store) (fe ps pe : String)
    (st' : Store) (L : List LabelRow)
    (hcl : create_labels st fe ps pe = some (st', some L)) :
    L.Pairwise (fun a b => a.inmate_doc_number ≠ b.inmate_doc_number) := by
  obtain ⟨x, y1, y2, _, _, _, _, hdf⟩ :=
    create_labels_inv st fe ps pe st' (some L) hcl
  rw [Option.some_inj.mp hdf]
  exact labelTable_pairwise st.sentences fe ps pe

/-- Witness for C3 at the scenario database. -/
theorem claim_C3_witness :
    (labelTable scenarioSource "2008-12-31" "2009-01-01" "2013-12-31").Pairwise
      (fun a b => a.inmate_doc_number ≠ b.inmate_doc_number) :=
  claim_C3_label_ids_unique ⟨scenarioSource, []⟩
    "2008-12-31" "2009-01-01" "2013-12-31"
    (executeScript ⟨scenarioSource, []⟩ "2008-12-31" "2009-01-01" "2013-12-31"
      2008 2009 2013)
    (labelTable scenarioSource "2008-12-31" "2009-01-01" "2013-12-31")
    (create_labels_eq ⟨scenarioSource, []⟩ "2008-12-31" "2009-01-01"
      "2013-12-31" 2008 2009 2013 (by decide) (by decide) (by decide))

/-- C4: on the specification's three-row scenario source, with historical
window [2000-01-01, 2008-12-31] and prediction window
[2009-01-01, 2013-12-31], `create_labels` produces exactly the label set
{(1, 1), (2, 0)}. -/
theorem claim_C4_end_to_end_scenario :
    labelTable scenarioSource "2008-12-31" "2009-01-01" "2013-12-31" =
      [⟨1, 1⟩, ⟨2, 0⟩] ∧
    ∃ st' : Store,
      create_labels ⟨scenarioSource, []⟩ "2008-12-31" "2009-01-01"
          "2013-12-31" =
        some (st', some [(⟨1, 1⟩ : LabelRow), ⟨2, 0⟩]) := by
  constructor
  · decide
  · refine ⟨executeScript ⟨scenarioSource, []⟩ "2008-12-31" "2009-01-01"
      "2013-12-31" 2008 2009 2013, ?_⟩
    rw [create_labels_eq ⟨scenarioSource, []⟩ "2008-12-31" "2009-01-01"
      "2013-12-31" 2008 2009 2013 (by decide) (by decide) (by decide)]
    have h : labelTable (⟨scenarioSource, []⟩ : Store).sentences "2008-12-31"
        "2009-01-01" "2013-12-31" = [⟨1, 1⟩, ⟨2, 0⟩] := by decide
    rw [h]

/-- C5: both window filters are inclusive on both boundaries: membership is
equivalent to a parsed date with `lo ≤ d ∧ d ≤ hi`, a release dated exactly
on the window's end date is kept, one dated a day later is dropped, and
admissions dated exactly on either prediction boundary are kept. -/
theorem claim_C5_window_boundaries_inclusive :
    (∀ (prep : List PrepRow) (fe : String) (r : ReleaseRow),
      r ∈ release_dates prep fe ↔
        ∃ p ∈ prep, r = ⟨p.inmate_doc_number, p.sentence_end_date⟩ ∧
          ∃ e, p.sentence_end_date = some e ∧ "2000-01-01" ≤ e ∧ e ≤ fe) ∧
    (∀ (prep : List PrepRow) (ps pe : String) (a : AdmissionRow),
      a ∈ admissions prep ps pe ↔
        ∃ p ∈ prep, a = ⟨p.inmate_doc_number, p.sentence_component,
            p.sentence_begin_date⟩ ∧ p.sentence_component = 1 ∧
          ∃ b, p.sentence_begin_date = some b ∧ ps ≤ b ∧ b ≤ pe) ∧
    release_dates [⟨7, 1, none, some "2008-12-31"⟩] "2008-12-31" =
      [⟨7, some "2008-12-31"⟩] ∧
    release_dates [⟨7, 1, none, some "2009-01-01"⟩] "2008-12-31" = [] ∧
    admissions [⟨7, 1, some "2009-01-01", none⟩] "2009-01-01" "2013-12-31" =
      [⟨7, 1, some "2009-01-01"⟩] ∧
    admissions [⟨7, 1, some "2013-12-31", none⟩] "2009-01-01" "2013-12-31" =
      [⟨7, 1, some "2013-12-31"⟩] := by
  refine ⟨?_, ?_, by decide, by decide, by decide, by decide⟩
  · intro prep fe r
    rw [mem_release_dates]
    constructor
    · rintro ⟨p, hp, hw, hreq⟩
      obtain ⟨e, he, hlo, hhi⟩ := inWindow_iff.mp hw
      exact ⟨p, hp, hreq, e, he, hlo, hhi⟩
    · rintro ⟨p, hp, hreq, e, he, hlo, hhi⟩
      refine ⟨p, hp, ?_, hreq⟩
      rw [inWindow_iff]
      exact ⟨e, he, hlo, hhi⟩
  · intro prep ps pe a
    rw [mem_admissions]
    constructor
    · rintro ⟨p, hp, hw, hc, haeq⟩
      obtain ⟨b, hb, hlo, hhi⟩ := inWindow_iff.mp hw
      exact ⟨p, hp, haeq, hc, b, hb, hlo, hhi⟩
    · rintro ⟨p, hp, haeq, hc, b, hb, hlo, hhi⟩
      refine ⟨p, hp, ?_, hc, haeq⟩
      rw [inWindow_iff]
      exact ⟨b, hb, hlo, hhi⟩


/-- C6 counterexample: a malformed end-date field in the source does NOT
abort the run.  SQLite's `date()` turns it into NULL, the row is silently
dropped from the windows, and `create_labels` completes, here returning an
empty label table. -/
theorem claim_C6_counterexample :
    sqliteDate "NOT A DATE" = none ∧
    ∃ st' : Store,
      create_labels ⟨malformedSource, []⟩ "2008-12-31" "2009-01-01"
          "2013-12-31" = some (st', some []) := by
  constructor
  · decide
  · refine ⟨executeScript ⟨malformedSource, []⟩ "2008-12-31" "2009-01-01"
      "2013-12-31" 2008 2009 2013, ?_⟩
    rw [create_labels_eq ⟨malformedSource, []⟩ "2008-12-31" "2009-01-01"
      "2013-12-31" 2008 2009 2013 (by decide) (by decide) (by decide)]
    have h : labelTable (⟨malformedSource, []⟩ : Store).sentences "2008-12-31"
        "2009-01-01" "2013-12-31" = [] := by decide
    rw [h]

/-- C6 (amended): only malformed date-string ARGUMENTS of `create_labels`
are fatal — the uncaught dateutil parse error aborts the run before any SQL
executes; malformed begin/end date FIELDS in the source are not errors:
`date()` yields NULL and those rows are silently excluded from the release
and admission relations. -/
theorem claim_C6_date_parse_amended :
    (∀ (st : Store) (fe ps pe : String),
      (parseFuzzyYear fe = none ∨ parseFuzzyYear ps = none ∨
        parseFuzzyYear pe = none) → create_labels st fe ps pe = none) ∧
    (∀ (prep : List PrepRow) (fe : String) (r : ReleaseRow),
      r ∈ release_dates prep fe → r.sentence_end_date ≠ none) ∧
    (∀ (prep : List PrepRow) (ps pe : String) (a : AdmissionRow),
      a ∈ admissions prep ps pe → a.sentence_begin_date ≠ none) := by
  refine ⟨?_, ?_, ?_⟩
  · intro st fe ps pe h
    rcases h with h | h | h
    · simp [create_labels, h]
    · cases hfe : parseFuzzyYear fe with
      | none => simp [create_labels, hfe]
      | some x => simp [create_labels, hfe, h]
    · cases hfe : parseFuzzyYear fe with
      | none => simp [create_labels, hfe]
      | some x =>
        cases hps : parseFuzzyYear ps with
        | none => simp [create_labels, hfe, hps]
        | some y1 => simp [create_labels, hfe, hps, h]
  · intro prep fe r hr
    exact release_end_ne_none hr
  · intro prep ps pe a ha
    exact admissions_begin_ne_none ha

/-- Witness for C6 (amended): an argument without a four-digit year aborts
the run. -/
theorem claim_C6_witness :
    create_labels ⟨[], []⟩ "no-year-here" "2014-01-01" "2018-12-31" = none :=
  claim_C6_date_parse_amended.1 ⟨[], []⟩ "no-year-here" "2014-01-01"
    "2018-12-31" (Or.inl (by decide))

/-- C7: calling `create_labels` twice with the same date parameters on an
unchanged source is idempotent: the second call leaves the database exactly
as the first did and returns a bit-identical output relation. -/
theorem claim_C7_idempotent (st : Store) (fe ps pe : String)
    (st1 st2 : Store) (df1 df2 : Option (List LabelRow))
    (h1 : create_labels st fe ps pe = some (st1, df1))
    (h2 : create_labels st1 fe ps pe = some (st2, df2)) :
    st2 = st1 ∧ df2 = df1 := by
  obtain ⟨x, y1, y2, hx, hps, hpe, hst1, hdf1⟩ :=
    create_labels_inv st fe ps pe st1 df1 h1
  obtain ⟨x', y1', y2', hx', hps', hpe', hst2, hdf2⟩ :=
    create_labels_inv st1 fe ps pe st2 df2 h2
  rw [hx] at hx'
  rw [hps] at hps'
  rw [hpe] at hpe'
  obtain rfl : x = x' := Option.some_inj.mp hx'
  obtain rfl : y1 = y1' := Option.some_inj.mp hps'
  obtain rfl : y2 = y2' := Option.some_inj.mp hpe'
  subst hst1
  constructor
  · rw [hst2]
    exact executeScript_idem st fe ps pe x y1 y2
  · rw [hdf2, hdf1, executeScript_sentences]

/-- Witness for C7 at the scenario database. -/
theorem claim_C7_witness :
    executeScript
        (executeScript ⟨scenarioSource, []⟩ "2008-12-31" "2009-01-01"
          "2013-12-31" 2008 2009 2013)
        "2008-12-31" "2009-01-01" "2013-12-31" 2008 2009 2013 =
      executeScript ⟨scenarioSource, []⟩ "2008-12-31" "2009-01-01"
        "2013-12-31" 2008 2009 2013 ∧
    some (labelTable
      (executeScript ⟨scenarioSource, []⟩ "2008-12-31" "2009-01-01"
        "2013-12-31" 2008 2009 2013).sentences
      "2008-12-31" "2009-01-01" "2013-12-31") =
      some (labelTable scenarioSource "2008-12-31" "2009-01-01"
        "2013-12-31") :=
  claim_C7_idempotent ⟨scenarioSource, []⟩ "2008-12-31" "2009-01-01"
    "2013-12-31"
    (executeScript ⟨scenarioSource, []⟩ "2008-12-31" "2009-01-01" "2013-12-31"
      2008 2009 2013)
    (executeScript
      (executeScript ⟨scenarioSource, []⟩ "2008-12-31" "2009-01-01"
        "2013-12-31" 2008 2009 2013)
      "2008-12-31" "2009-01-01" "2013-12-31" 2008 2009 2013)
    (some (labelTable scenarioSource "2008-12-31" "2009-01-01" "2013-12-31"))
    (some (labelTable
      (executeScript ⟨scenarioSource, []⟩ "2008-12-31" "2009-01-01"
        "2013-12-31" 2008 2009 2013).sentences
      "2008-12-31" "2009-01-01" "2013-12-31"))
    (create_labels_eq ⟨scenarioSource, []⟩ "2008-12-31" "2009-01-01"
      "2013-12-31" 2008 2009 2013 (by decide) (by decide) (by decide))
    (create_labels_eq
      (executeScript ⟨scenarioSource, []⟩ "2008-12-31" "2009-01-01"
        "2013-12-31" 2008 2009 2013)
      "2008-12-31" "2009-01-01" "2013-12-31" 2008 2009 2013
      (by decide) (by decide) (by decide))


/-- C8: `create_labels` leaves in the store a persistent (non-temp)
relation named `recidivism_labels_<start_year>_<end_year>`, the years being
the fuzzy-parsed calendar years of the prediction boundaries, and returns
that relation's contents as the in-memory table. -/
theorem claim_C8_persisted_labels (st : Store) (fe ps pe : String)
    (x y1 y2 : Nat) (hx : parseFuzzyYear fe = some x)
    (h1 : parseFuzzyYear ps = some y1) (h2 : parseFuzzyYear pe = some y2) :
    ∃ st' : Store,
      create_labels st fe ps pe =
        some (st', some (labelTable st.sentences fe ps pe)) ∧
      ∃ entry ∈ st'.tables,
        entry.name =
          "recidivism_labels_" ++ (toString y1 ++ "_" ++ toString y2) ∧
        entry.is_temp = false ∧
        entry.table = .labelsT (labelTable st.sentences fe ps pe) := by
  refine ⟨executeScript st fe ps pe x y1 y2,
    create_labels_eq st fe ps pe x y1 y2 hx h1 h2, ?_⟩
  refine ⟨⟨labelsName y1 y2, false,
    .labelsT (labelTable st.sentences fe ps pe)⟩, ?_, rfl, rfl, rfl⟩
  exact List.mem_of_find?_eq_some (find?_labels st fe ps pe x y1 y2)

/-- Witness for C8 at the scenario database. -/
theorem claim_C8_witness :
    ∃ st' : Store,
      create_labels ⟨scenarioSource, []⟩ "2008-12-31" "2009-01-01"
          "2013-12-31" =
        some (st', some (labelTable scenarioSource "2008-12-31" "2009-01-01"
          "2013-12-31")) ∧
      ∃ entry ∈ st'.tables,
        entry.name =
          "recidivism_labels_" ++ (toString 2009 ++ "_" ++ toString 2013) ∧
        entry.is_temp = false ∧
        entry.table = .labelsT (labelTable scenarioSource "2008-12-31"
          "2009-01-01" "2013-12-31") :=
  claim_C8_persisted_labels ⟨scenarioSource, []⟩ "2008-12-31" "2009-01-01"
    "2013-12-31" 2008 2009 2013 (by decide) (by decide) (by decide)

/-- C9: the lower bound of the historical release window is the constant
2000-01-01 whatever the arguments: an individual all of whose parsed
release dates fall before 2000-01-01 contributes no release row and never
receives a label. -/
theorem claim_C9_lower_bound_2000 (src : List RawSentence)
    (fe ps pe : String) (i : Nat)
    (h : ∀ s ∈ src, s.inmate_doc_number = i →
      ∀ e, sqliteDate s.sentence_end_date_raw = some e →
        ¬ ("2000-01-01" ≤ e)) :
    (∀ r ∈ release_dates (sentences_prep src) fe,
      r.inmate_doc_number ≠ i) ∧
    (∀ v, (⟨i, v⟩ : LabelRow) ∉ labelTable src fe ps pe) := by
  have hrel : ∀ r ∈ release_dates (sentences_prep src) fe,
      r.inmate_doc_number ≠ i := by
    intro r hr hri
    obtain ⟨p, hp, hw, hreq⟩ := mem_release_dates.mp hr
    obtain ⟨e, he, hlo, _⟩ := inWindow_iff.mp hw
    obtain ⟨s, hs, rfl⟩ := List.mem_map.mp hp
    rw [hreq] at hri
    exact h s hs hri e he hlo
  exact ⟨hrel, labelTable_not_mem_of_no_release src fe ps pe i hrel⟩

/-- Witness for C9: a single individual whose only release is 1999-06-30 is
absent from releases and labels even with a late `features_end`. -/
theorem claim_C9_witness :
    (∀ r ∈ release_dates (sentences_prep pre2000Source) "2013-12-31",
      r.inmate_doc_number ≠ 5) ∧
    (∀ v, (⟨5, v⟩ : LabelRow) ∉
      labelTable pre2000Source "2013-12-31" "2014-01-01" "2018-12-31") :=
  claim_C9_lower_bound_2000 pre2000Source "2013-12-31" "2014-01-01"
    "2018-12-31" 5 (by
      intro s hs _ e he hle
      rcases List.mem_singleton.mp hs with rfl
      have h19 : sqliteDate "1999-06-30" = some "1999-06-30" := by decide
      rw [h19] at he
      obtain rfl : "1999-06-30" = e := Option.some_inj.mp he
      have hstr : strLe "2000-01-01" "1999-06-30" = true := strLe_iff.mpr hle
      exact absurd hstr (by decide))

/-- C10: as written, `create_labels` sends every drop and create through
the module-global cursor (the `globalSt` database) and uses the `conn`
argument only for the final read; `conn`'s database is returned untouched,
and the read returns the computed labels exactly when `conn` refers to the
same database the script just mutated. -/
theorem claim_C10_global_cursor_conn (g c : Store) (fe ps pe : String)
    (x y1 y2 : Nat) (hx : parseFuzzyYear fe = some x)
    (h1 : parseFuzzyYear ps = some y1) (h2 : parseFuzzyYear pe = some y2) :
    create_labels_conn g c fe ps pe =
        some (executeScript g fe ps pe x y1 y2, c, readLabels c y1 y2) ∧
      (c = executeScript g fe ps pe x y1 y2 →
        readLabels c y1 y2 = some (labelTable g.sentences fe ps pe)) := by
  constructor
  · exact create_labels_conn_eq g c fe ps pe x y1 y2 hx h1 h2
  · intro hc
    rw [hc, readLabels_executeScript]

/-- Witness for C10: global database holding the scenario source, `conn`
bound to an unrelated empty database. -/
theorem claim_C10_witness :
    create_labels_conn ⟨scenarioSource, []⟩ ⟨[], []⟩ "2008-12-31"
        "2009-01-01" "2013-12-31" =
      some (executeScript ⟨scenarioSource, []⟩ "2008-12-31" "2009-01-01"
          "2013-12-31" 2008 2009 2013,
        (⟨[], []⟩ : Store), readLabels ⟨[], []⟩ 2009 2013) :=
  (claim_C10_global_cursor_conn ⟨scenarioSource, []⟩ ⟨[], []⟩ "2008-12-31"
    "2009-01-01" "2013-12-31" 2008 2009 2013
    (by decide) (by decide) (by decide)).1

end RecidivismLabels
